import Mathlib

/-!
Shallow embedding of the dependency-extraction and manifest-synthesis engine
of `debugger/code_analyzer/generate_requirements.py`, together with proofs
about the claims on its specification.

Modelling conventions:

* A source file is a path (its components, as `pathlib.Path(...).parts`
  yields them) plus its already-decoded text content.  The encoding-fallback
  loop of `extract_imports` is not modelled: every claim treats file content
  after decoding.
* The recursive directory walk `path.rglob(*)` is modelled by the list of
  files it enumerates; whether the scan root exists is an explicit boolean.
* The network (`requests.get` plus `resp.json()` field access) is modelled
  by an oracle `String -> NetReply` per registry; a reply either raises
  (timeout / connection failure) or carries a status code and the outcome of
  extracting the version field from the JSON body (`Except` models a raise
  during parsing or key lookup).
* Python sets are modelled as `Finset String`; where the code iterates a set
  (`sorted(packages)`, `len(packages)`) the iteration order is modelled by a
  list, and order-independence is proved rather than assumed.
* Machine-level details (file handles, printing) are out of scope; written
  manifests are modelled as `(file name, content)` pairs in write order.
-/

/-- The four keys of the `LANGUAGE_PATTERNS` dict, in dict (insertion) order. -/
inductive Lang where
  | python
  | javascript
  | java
  | csharp
deriving DecidableEq, Repr

/-- The dict key of a language, as interpolated by `f"requirements-\x7blang\x7d.txt"`. -/
def Lang.key : Lang → String
  | .python => "python"
  | .javascript => "javascript"
  | .java => "java"
  | .csharp => "csharp"

/-- Iteration order of `LANGUAGE_PATTERNS.items()`. -/
def langOrder : List Lang := [.python, .javascript, .java, .csharp]

/-- A file seen by the scan: its path components (as `Path.parts`) and its text. -/
structure SrcFile where
  parts : List String
  content : String
deriving DecidableEq

/-- `LANGUAGE_PATTERNS[lang]["extensions"]`. -/
def extensions : Lang → List String
  | .python => [".py"]
  | .javascript => [".js", ".jsx", ".ts", ".tsx"]
  | .java => [".java"]
  | .csharp => [".cs"]

/-- The regex class `[a-zA-Z0-9_\.]` (ASCII, as Python `re` matches it here). -/
def reIdentChar (c : Char) : Bool :=
  c.isAlpha || c.isDigit || c = '_' || c = '.'

/-- The regex class `\s` restricted to ASCII, as it occurs inside a single line. -/
def reSpaceChar (c : Char) : Bool :=
  c = ' ' || c = '\t' || c = '\n' || c = '\r' || c = '\x0b' || c = '\x0c'

/-- Consume an exact literal; `none` when the input does not start with it. -/
def litChars : List Char → List Char → Option (List Char)
  | [], cs => some cs
  | _ :: _, [] => none
  | p :: ps, c :: cs => if c = p then litChars ps cs else none

/-- Consume a nonempty maximal run of characters of a class (regex `[cls]+`).
Returns the run and the remainder. -/
def plusRun (p : Char → Bool) (cs : List Char) : Option (List Char × List Char) :=
  match cs.takeWhile p with
  | [] => none
  | run => some (run, cs.dropWhile p)

/-- Python regex `^import\s+([a-zA-Z0-9_\.]+)` applied to one line
(`re.findall` with a `^` anchor yields at most one capture). -/
def matchPyImport (cs : List Char) : Option String := do
  let r1 ← litChars "import".data cs
  let (_, r2) ← plusRun reSpaceChar r1
  let (cap, _) ← plusRun reIdentChar r2
  pure (String.mk cap)

/-- Python regex `^from\s+([a-zA-Z0-9_\.]+)\s+import` applied to one line. -/
def matchPyFrom (cs : List Char) : Option String := do
  let r1 ← litChars "from".data cs
  let (_, r2) ← plusRun reSpaceChar r1
  let (cap, r3) ← plusRun reIdentChar r2
  let (_, r4) ← plusRun reSpaceChar r3
  let _ ← litChars "import".data r4
  pure (String.mk cap)

/-- Single quote character (spelled via its code point). -/
def squote : Char := Char.ofNat 39

/-- The capture `([^/\x27\x22][^\x27\x22]*)` followed by a closing quote, as in
both javascript patterns: first character not a slash or quote, remaining run
anything but a quote, then a quote.  Returns the capture and the remainder
after the closing quote. -/
def jsCapture (cs : List Char) : Option (String × List Char) := do
  match cs with
  | [] => none
  | c :: rest =>
    if c = '/' || c = squote || c = '"' then none
    else
      let run := rest.takeWhile (fun d => !(d = squote || d = '"'))
      match rest.dropWhile (fun d => !(d = squote || d = '"')) with
      | q :: r2 =>
        if q = squote || q = '"' then some (String.mk (c :: run), r2) else none
      | [] => none

/-- The tail `from\s+[\x27\x22]([^/\x27\x22][^\x27\x22]*)[\x27\x22]` of the first
javascript pattern, tried at one position of the lazily scanned `.*?`. -/
def jsFromTail (cs : List Char) : Option String := do
  let r1 ← litChars "from".data cs
  let (_, r2) ← plusRun reSpaceChar r1
  match r2 with
  | q :: r3 =>
    if q = squote || q = '"' then
      match jsCapture r3 with
      | some p => some p.1
      | none => none
    else none
  | [] => none

/-- The tail `=\s+require\([\x27\x22]([^/\x27\x22][^\x27\x22]*)[\x27\x22]\)` of the
second javascript pattern: the closing parenthesis must follow the quote. -/
def jsRequireTail (cs : List Char) : Option String := do
  let r1 ← litChars "=".data cs
  let (_, r2) ← plusRun reSpaceChar r1
  let r3 ← litChars "require(".data r2
  match r3 with
  | q :: r4 =>
    if q = squote || q = '"' then
      match jsCapture r4 with
      | some p =>
        match litChars ")".data p.2 with
        | some _ => some p.1
        | none => none
      | none => none
    else none
  | [] => none

/-- Lazy `.*?`: try the tail matcher at each position, leftmost first. -/
def lazyScan (tail : List Char → Option String) : List Char → Option String
  | [] => tail []
  | c :: cs =>
    match tail (c :: cs) with
    | some s => some s
    | none => lazyScan tail cs

/-- Javascript regex `^import\s+.*?from\s+[\x27\x22]([^/\x27\x22][^\x27\x22]*)[\x27\x22]`. -/
def matchJsImport (cs : List Char) : Option String := do
  let r1 ← litChars "import".data cs
  let (_, r2) ← plusRun reSpaceChar r1
  lazyScan jsFromTail r2

/-- Javascript regex `^const\s+.*?=\s+require\([\x27\x22]([^/\x27\x22][^\x27\x22]*)[\x27\x22]\)`. -/
def matchJsRequire (cs : List Char) : Option String := do
  let r1 ← litChars "const".data cs
  let (_, r2) ← plusRun reSpaceChar r1
  match lazyScan jsRequireTail r2 with
  | some cap =>
    pure cap
  | none => none

/-- Java regex `^import\s+([a-zA-Z0-9_\.]+);`. -/
def matchJavaImport (cs : List Char) : Option String := do
  let r1 ← litChars "import".data cs
  let (_, r2) ← plusRun reSpaceChar r1
  let (cap, r3) ← plusRun reIdentChar r2
  let _ ← litChars ";".data r3
  pure (String.mk cap)

/-- C# regex `^using\s+([a-zA-Z0-9_\.]+);`. -/
def matchCsUsing (cs : List Char) : Option String := do
  let r1 ← litChars "using".data cs
  let (_, r2) ← plusRun reSpaceChar r1
  let (cap, r3) ← plusRun reIdentChar r2
  let _ ← litChars ";".data r3
  pure (String.mk cap)

/-- `LANGUAGE_PATTERNS[lang]["import_patterns"]`, in list order. -/
def importMatchers : Lang → List (List Char → Option String)
  | .python => [matchPyImport, matchPyFrom]
  | .javascript => [matchJsImport, matchJsRequire]
  | .java => [matchJavaImport]
  | .csharp => [matchCsUsing]

/-- Models CPython `sys.stdlib_module_names` (3.12, public names; the
underscore-prefixed members are subsumed by the `startswith("_")` test of the
python stdlib predicate). -/
def sysStdlibModuleNames : List String :=
  ["abc", "aifc", "antigravity", "argparse", "array", "ast", "asyncio",
   "atexit", "audioop", "base64", "bdb", "binascii", "bisect", "builtins",
   "bz2", "cProfile", "calendar", "cgi", "cgitb", "chunk", "cmath", "cmd",
   "code", "codecs", "codeop", "collections", "colorsys", "compileall",
   "concurrent", "configparser", "contextlib", "contextvars", "copy",
   "copyreg", "crypt", "csv", "ctypes", "curses", "dataclasses", "datetime",
   "dbm", "decimal", "difflib", "dis", "doctest", "email", "encodings",
   "ensurepip", "enum", "errno", "faulthandler", "fcntl", "filecmp",
   "fileinput", "fnmatch", "fractions", "ftplib", "functools", "gc",
   "genericpath", "getopt", "getpass", "gettext", "glob", "graphlib", "grp",
   "gzip", "hashlib", "heapq", "hmac", "html", "http", "idlelib", "imaplib",
   "imghdr", "importlib", "inspect", "io", "ipaddress", "itertools", "json",
   "keyword", "lib2to3", "linecache", "locale", "logging", "lzma", "mailbox",
   "mailcap", "marshal", "math", "mimetypes", "mmap", "modulefinder",
   "msilib", "msvcrt", "multiprocessing", "netrc", "nis", "nntplib", "nt",
   "ntpath", "nturl2path", "numbers", "opcode", "operator", "optparse", "os",
   "ossaudiodev", "pathlib", "pdb", "pickle", "pickletools", "pipes",
   "pkgutil", "platform", "plistlib", "poplib", "posix", "posixpath",
   "pprint", "profile", "pstats", "pty", "pwd", "py_compile", "pyclbr",
   "pydoc", "pyexpat", "queue", "quopri", "random", "re", "readline",
   "reprlib", "resource", "rlcompleter", "runpy", "sched", "secrets",
   "select", "selectors", "shelve", "shlex", "shutil", "signal", "site",
   "smtplib", "sndhdr", "socket", "socketserver", "spwd", "sqlite3", "ssl",
   "stat", "statistics", "string", "stringprep", "struct", "subprocess",
   "sunau", "symtable", "sys", "sysconfig", "syslog", "tabnanny", "tarfile",
   "telnetlib", "tempfile", "termios", "test", "textwrap", "this",
   "threading", "time", "timeit", "tkinter", "token", "tokenize", "tomllib",
   "trace", "traceback", "tracemalloc", "tty", "turtle", "turtledemo",
   "types", "typing", "unicodedata", "unittest", "urllib", "uu", "uuid",
   "venv", "warnings", "wave", "weakref", "webbrowser", "winreg", "winsound",
   "wsgiref", "xdrlib", "xml", "xmlrpc", "zipapp", "zipfile", "zipimport",
   "zlib", "zoneinfo"]

/-- Models CPython `sys.builtin_module_names` (public names of a typical Linux
build; all are also stdlib module names). -/
def sysBuiltinModuleNames : List String :=
  ["atexit", "builtins", "errno", "faulthandler", "gc", "itertools",
   "marshal", "posix", "pwd", "sys", "time"]

/-- Python `str.startswith` for a single string argument. -/
def pyStartswith (s p : String) : Bool := p.data.isPrefixOf s.data

/-- The node built-in module list of the javascript `stdlib_check` closure. -/
def nodeBuiltinModules : List String :=
  ["fs", "path", "http", "https", "url", "util", "events", "stream",
   "crypto", "zlib", "buffer", "child_process", "cluster", "dgram",
   "dns", "domain", "os", "net", "readline", "repl", "tls", "tty",
   "vm", "assert", "constants", "module", "process", "querystring",
   "string_decoder", "timers", "v8", "punycode"]

/-- `LANGUAGE_PATTERNS[lang]["stdlib_check"]`. -/
def stdlibCheck : Lang → String → Bool
  | .python, name =>
    sysStdlibModuleNames.contains name ||
    sysBuiltinModuleNames.contains name ||
    pyStartswith name "_" ||
    ["test", "unittest", "distutils", "setuptools", "pip"].contains name
  | .javascript, name => nodeBuiltinModules.contains name
  | .java, name => pyStartswith name "java." || pyStartswith name "javax."
  | .csharp, name => pyStartswith name "System." || pyStartswith name "Microsoft."

/-- `match.split(".")[0]`: the prefix of the raw import path before its first
dot (the whole string when it has no dot). -/
def rootOf (s : String) : String :=
  String.mk (s.data.takeWhile (fun c => c ≠ '.'))

/-- Python `str.splitlines` restricted to the `\n`, `\r\n` and `\r`
terminators (a trailing segment is emitted only when nonempty). -/
def pySplitlines : List Char → List (List Char)
  | [] => []
  | '\r' :: '\n' :: rest => [] :: pySplitlines rest
  | '\n' :: rest => [] :: pySplitlines rest
  | '\r' :: rest => [] :: pySplitlines rest
  | c :: rest =>
    match pySplitlines rest with
    | [] => [[c]]
    | l :: ls => (c :: l) :: ls

/-- Python `str.strip()` (ASCII whitespace). -/
def pyStrip (cs : List Char) : List Char :=
  ((cs.dropWhile reSpaceChar).reverse.dropWhile reSpaceChar).reverse

/-- `line.startswith(("#", "//"))`. -/
def isCommentLine (cs : List Char) : Bool :=
  "#".data.isPrefixOf cs || "//".data.isPrefixOf cs

/-- The identifiers one (already stripped) line contributes in
`extract_imports`: every pattern is applied, each capture is cut down to its
root, and the root is kept when nonempty, not a standard-library name and not
a relative import. -/
def lineImports (lang : Lang) (line : List Char) : List String :=
  if line = [] || isCommentLine line then []
  else
    ((importMatchers lang).filterMap (fun m => m line)).filterMap (fun raw =>
      let base := rootOf raw
      if base ≠ "" && !(stdlibCheck lang base) && !(pyStartswith base ".") then
        some base
      else none)

/-- `extract_imports(file_path, language)` on decoded content: the set of
non-stdlib root import identifiers found on the lines of the file. -/
def extract_imports (content : String) (lang : Lang) : Finset String :=
  (((pySplitlines content.data).map pyStrip).flatMap (lineImports lang)).toFinset

/-- Index of the last dot of a file name, as `name.rfind(".")`. -/
def lastDotIdx : List Char → Option Nat
  | [] => none
  | c :: rest =>
    match lastDotIdx rest with
    | some i => some (i + 1)
    | none => if c = '.' then some 0 else none

/-- `pathlib.Path(...).suffix`: from the last dot, provided that dot is
neither the first nor the last character of the name. -/
def pySuffix (name : List Char) : List Char :=
  match lastDotIdx name with
  | some i => if 0 < i && i < name.length - 1 then name.drop i else []
  | none => []

/-- `detect_language(file_path)`: lowercased suffix matched against each
profile in `LANGUAGE_PATTERNS` order; first match wins. -/
def detect_language (f : SrcFile) : Option Lang :=
  let ext := String.mk ((pySuffix (f.parts.getLastD "").data).map Char.toLower)
  langOrder.find? (fun l => (extensions l).contains ext)

/-- The exclusion test of the scan loop:
`"venv" in file_path.parts or "__pycache__" in file_path.parts or "node_modules" in file_path.parts`
(Python `in` on `parts` is exact segment equality). -/
def excludedPath (parts : List String) : Bool :=
  parts.contains "venv" || parts.contains "__pycache__" ||
  parts.contains "node_modules"

/-- Whether the scan loop lets a file reach `extract_imports` for `lang`:
not excluded, and classified as `lang`. -/
def fileContributes (f : SrcFile) (lang : Lang) : Bool :=
  !(excludedPath f.parts) && (detect_language f == some lang)

/-- `scan_directory(path)`: per-language union of the import sets of the
enumerated files.  A nonexistent root yields the empty dict (the code prints
a warning and returns `\x7b\x7d`). -/
def scan_directory (rootExists : Bool) (files : List SrcFile) : Lang → Finset String :=
  match rootExists with
  | false => fun _ => ∅
  | true => fun lang =>
    (files.filter (fun f => fileContributes f lang)).foldr
      (fun f acc => extract_imports f.content lang ∪ acc) ∅

/-- `scan_directory` with the Python exception channel made explicit: the
function has no `raise` on any path — in particular the nonexistent-root
branch prints and returns the empty dict rather than raising. -/
def scanDirectoryE (rootExists : Bool) (files : List SrcFile) :
    Except String (Lang → Finset String) :=
  Except.ok (scan_directory rootExists files)

/-- `PACKAGE_MAP["python"]` (duplicate dict-literal keys collapsed; every
duplicate in the source rebinds the same value). -/
def PACKAGE_MAP_python : List (String × String) :=
  [("dotenv", "python-dotenv"), ("sklearn", "scikit-learn"), ("PIL", "Pillow"),
   ("yaml", "PyYAML"), ("cv2", "opencv-python"), ("numpy", "numpy"),
   ("pandas", "pandas"), ("tensorflow", "tensorflow"), ("torch", "torch"),
   ("keras", "keras"), ("matplotlib", "matplotlib"), ("seaborn", "seaborn"),
   ("requests", "requests"), ("beautifulsoup4", "beautifulsoup4"),
   ("bs4", "beautifulsoup4"), ("flask", "flask"), ("django", "django"),
   ("fastapi", "fastapi"), ("sqlalchemy", "sqlalchemy"), ("pymongo", "pymongo"),
   ("redis", "redis"), ("celery", "celery"), ("pytest", "pytest"),
   ("unittest", "unittest2"), ("rich", "rich"), ("colorama", "colorama"),
   ("tqdm", "tqdm"), ("jupyter", "jupyter"), ("ipython", "ipython"),
   ("pylint", "pylint"), ("black", "black"), ("flake8", "flake8"),
   ("mypy", "mypy"), ("sphinx", "sphinx"), ("twine", "twine"),
   ("setuptools", "setuptools"), ("wheel", "wheel"), ("pip", "pip"),
   ("virtualenv", "virtualenv"), ("conda", "conda"), ("poetry", "poetry"),
   ("pydantic", "pydantic"), ("typing", "typing-extensions"),
   ("cryptography", "cryptography"), ("pyjwt", "PyJWT"), ("passlib", "passlib"),
   ("bcrypt", "bcrypt"), ("aiohttp", "aiohttp"), ("websockets", "websockets"),
   ("grpcio", "grpcio"), ("protobuf", "protobuf"), ("scipy", "scipy"),
   ("statsmodels", "statsmodels"), ("plotly", "plotly"), ("bokeh", "bokeh"),
   ("dash", "dash"), ("streamlit", "streamlit"), ("gradio", "gradio"),
   ("transformers", "transformers"), ("spacy", "spacy"), ("nltk", "nltk"),
   ("gensim", "gensim"), ("textblob", "textblob"),
   ("pytesseract", "pytesseract"), ("opencv", "opencv-python"),
   ("pillow", "Pillow"), ("moviepy", "moviepy"), ("pydub", "pydub"),
   ("soundfile", "soundfile"), ("librosa", "librosa"), ("pyaudio", "PyAudio"),
   ("pygame", "pygame"), ("pyglet", "pyglet"), ("arcade", "arcade"),
   ("pyopengl", "PyOpenGL"), ("pygobject", "PyGObject"), ("pyqt5", "PyQt5"),
   ("pyqt6", "PyQt6"), ("pyside2", "PySide2"), ("pyside6", "PySide6"),
   ("tkinter", "python-tk"), ("wx", "wxPython"), ("kivy", "kivy")]

/-- `PACKAGE_MAP["javascript"]` (duplicate dict-literal keys collapsed). -/
def PACKAGE_MAP_javascript : List (String × String) :=
  [("react", "@types/react"), ("react-dom", "@types/react-dom"),
   ("vue", "vue"), ("angular", "@angular/core"), ("express", "express"),
   ("next", "next"), ("nuxt", "nuxt"), ("gatsby", "gatsby"),
   ("jquery", "jquery"), ("lodash", "lodash"), ("moment", "moment"),
   ("axios", "axios"), ("redux", "redux"), ("mobx", "mobx"),
   ("graphql", "graphql"), ("apollo", "apollo-client"),
   ("socket.io", "socket.io"), ("ws", "ws"), ("mongoose", "mongoose"),
   ("sequelize", "sequelize"), ("typeorm", "typeorm"), ("prisma", "prisma"),
   ("jest", "jest"), ("mocha", "mocha"), ("chai", "chai"),
   ("cypress", "cypress"), ("puppeteer", "puppeteer"),
   ("playwright", "playwright"), ("webpack", "webpack"),
   ("babel", "@babel/core"), ("typescript", "typescript"),
   ("eslint", "eslint"), ("prettier", "prettier"),
   ("tailwindcss", "tailwindcss"), ("bootstrap", "bootstrap"),
   ("material-ui", "@mui/material"), ("antd", "antd"),
   ("styled-components", "styled-components"), ("sass", "sass"),
   ("less", "less"), ("postcss", "postcss"), ("autoprefixer", "autoprefixer"),
   ("esbuild", "esbuild"), ("vite", "vite"), ("rollup", "rollup"),
   ("parcel", "parcel"), ("browserify", "browserify"), ("gulp", "gulp"),
   ("grunt", "grunt"), ("yarn", "yarn"), ("npm", "npm"), ("pnpm", "pnpm"),
   ("lerna", "lerna"), ("nx", "nx"), ("turborepo", "turborepo"),
   ("storybook", "storybook"), ("docusaurus", "docusaurus"),
   ("svelte", "svelte"), ("sveltekit", "sveltekit"), ("solid", "solid-js"),
   ("qwik", "qwik"), ("astro", "astro"), ("eleventy", "eleventy"),
   ("hugo", "hugo"), ("jekyll", "jekyll"), ("hexo", "hexo")]

/-- `PACKAGE_MAP.get(language, \x7b\x7d)`: the per-language alias table;
empty for languages without an entry. -/
def packageMap : Lang → List (String × String)
  | .python => PACKAGE_MAP_python
  | .javascript => PACKAGE_MAP_javascript
  | _ => []

/-- `PACKAGE_MAP.get(language, \x7b\x7d).get(package, package.lower())`:
exact-match alias lookup, falling back to the lowercased identifier. -/
def resolve_name (lang : Lang) (package : String) : String :=
  ((packageMap lang).lookup package).getD package.toLower

/-- One registry interaction for one package name, as the code observes it:
either `requests.get` raises (timeout, connection failure), or a response
arrives with a status code and the outcome of evaluating
`resp.json()["info"]["version"]` / `resp.json()["version"]` on its body
(`Except.error` models a raise while parsing or indexing the JSON). -/
inductive NetReply where
  | raiseGet (msg : String)
  | response (status : Nat) (versionField : Except String String)

instance : DecidableEq (Except String String) := fun x y =>
  match x, y with
  | .error a, .error b => decidable_of_iff (a = b) (by simp)
  | .error _, .ok _ => isFalse (by simp)
  | .ok _, .error _ => isFalse (by simp)
  | .ok a, .ok b => decidable_of_iff (a = b) (by simp)

instance : DecidableEq NetReply := fun x y =>
  match x, y with
  | .raiseGet a, .raiseGet b => decidable_of_iff (a = b) (by simp)
  | .raiseGet _, .response _ _ => isFalse (by simp)
  | .response _ _, .raiseGet _ => isFalse (by simp)
  | .response s1 v1, .response s2 v2 => decidable_of_iff (s1 = s2 ∧ v1 = v2) (by simp)

/-- The body of `get_latest_version` before its `except Exception` handler:
alias-resolve the name, query the registry of the language (none is
configured for java or C#), return the version field on a 200 response and
`None` on any other status; exceptions propagate as `Except.error`. -/
def getLatestVersionE (pypi npm : String → NetReply) (lang : Lang)
    (package : String) : Except String (Option String) :=
  let package := resolve_name lang package
  match lang with
  | .python =>
    match pypi package with
    | .raiseGet m => .error m
    | .response status vf =>
      if status = 200 then
        match vf with
        | .error m => .error m
        | .ok v => .ok (some v)
      else .ok none
  | .javascript =>
    match npm package with
    | .raiseGet m => .error m
    | .response status vf =>
      if status = 200 then
        match vf with
        | .error m => .error m
        | .ok v => .ok (some v)
      else .ok none
  | _ => .ok none

/-- `get_latest_version(package, language)`: the `except Exception` handler
turns every raised exception into a printed warning and the fall-through
`return None`. -/
def get_latest_version (pypi npm : String → NetReply) (lang : Lang)
    (package : String) : Option String :=
  match getLatestVersionE pypi npm lang package with
  | .error _ => none
  | .ok v => v

/-- Python truthiness of an optional string (`if version:`): `None` and the
empty string are falsy. -/
def pyTruthy : Option String → Option String
  | none => none
  | some s => if s = "" then none else some s

/-- `sorted(packages)`: the sorted iteration of a package set. -/
def pysorted (l : List String) : List String := List.insertionSort (· ≤ ·) l

/-- Sequential `f.write` calls: concatenation of the written pieces. -/
def writeAll : List String → String
  | [] => ""
  | s :: rest => s ++ writeAll rest

/-- One line of the python manifest:
`f"\x7bpkg\x7d==\x7bversion\x7d"` when the lookup is truthy, else the bare name. -/
def pyLine (pypi npm : String → NetReply) (pkg : String) : String :=
  match pyTruthy (get_latest_version pypi npm .python pkg) with
  | some version => pkg ++ "==" ++ version
  | none => pkg

/-- The lines written into the python manifest (without their newlines). -/
def pythonManifestLines (pypi npm : String → NetReply) (packages : List String) :
    List String :=
  (pysorted packages).map (pyLine pypi npm)

/-- The full content of the python manifest file. -/
def pythonManifestContent (pypi npm : String → NetReply) (packages : List String) :
    String :=
  writeAll ((pythonManifestLines pypi npm packages).map (fun line => line ++ "\n"))

/-- The version string written for one javascript package:
`f"\x7bversion\x7d"` when the lookup is truthy, else the wildcard `*`. -/
def jsVersionStr (pypi npm : String → NetReply) (pkg : String) : String :=
  match pyTruthy (get_latest_version pypi npm .javascript pkg) with
  | some version => version
  | none => "*"

/-- The `(name, version string)` pairs of the javascript manifest, in
emission order. -/
def jsDeps (pypi npm : String → NetReply) (packages : List String) :
    List (String × String) :=
  (pysorted packages).map (fun pkg => (pkg, jsVersionStr pypi npm pkg))

/-- The untermimated text of one `package.json` entry:
`    "\x7bpkg\x7d": "\x7bversion\x7d"`. -/
def jsEntryStr (kv : String × String) : String :=
  "    \"" ++ kv.1 ++ "\": \"" ++ kv.2 ++ "\""

/-- The lines of the `package.json` body: `enumerate(sorted(packages))` with
`comma = "," if i < len(packages) - 1 else ""`. -/
def jsLines (pypi npm : String → NetReply) (packages : List String) :
    List String :=
  ((jsDeps pypi npm packages).enum).map (fun ip =>
    jsEntryStr ip.2 ++ (if ip.1 < packages.length - 1 then "," else "") ++ "\n")

/-- The full content of the written `package.json`. -/
def jsManifestContent (pypi npm : String → NetReply) (packages : List String) :
    String :=
  "\x7b\n  \"dependencies\": \x7b\n" ++ writeAll (jsLines pypi npm packages) ++
  "  \x7d\n\x7d"

/-- The full content of a `requirements-<lang>.txt` manifest: one bare sorted
name per line. -/
def otherManifestContent (packages : List String) : String :=
  writeAll ((pysorted packages).map (fun pkg => pkg ++ "\n"))

/-- The write performed for one language bucket of the loop body of
`generate_requirements`: target file name and content. -/
def emitBucket (pypi npm : String → NetReply) (output_file : String)
    (lp : Lang × List String) : String × String :=
  match lp.1 with
  | .python => (output_file, pythonManifestContent pypi npm lp.2)
  | .javascript => ("package.json", jsManifestContent pypi npm lp.2)
  | l => ("requirements-" ++ l.key ++ ".txt", otherManifestContent lp.2)

/-- The `for lang, packages in all_imports.items()` loop: empty buckets are
skipped (`if not packages: continue`), every other bucket produces one file
write. -/
def emitLoop (pypi npm : String → NetReply) (allImports : List (Lang × List String))
    (output_file : String) : List (String × String) :=
  allImports.filterMap (fun lp =>
    if lp.2 = [] then none else some (emitBucket pypi npm output_file lp))

/-- The manifest-emission part of `generate_requirements`, after
`all_imports = scan_directory(directory)`: `if not all_imports: return`,
then the emission loop.  The result lists the written files in write order. -/
def emitManifests (pypi npm : String → NetReply)
    (allImports : List (Lang × List String)) (output_file : String) :
    List (String × String) :=
  if allImports = [] then [] else emitLoop pypi npm allImports output_file

/-- The scan result as the association list `generate_requirements` iterates:
language buckets in `LANGUAGE_PATTERNS` order, each nonempty package set
iterated through its sorted element list. -/
def scanDict (rootExists : Bool) (files : List SrcFile) :
    List (Lang × List String) :=
  langOrder.filterMap (fun l =>
    match Finset.sort (· ≤ ·) (scan_directory rootExists files l) with
    | [] => none
    | ps => some (l, ps))

/-- `generate_requirements(directory, output_file)`: scan, then emit one
manifest per nonempty language bucket. -/
def generate_requirements (pypi npm : String → NetReply) (rootExists : Bool)
    (files : List SrcFile) (output_file : String) : List (String × String) :=
  emitManifests pypi npm (scanDict rootExists files) output_file

/-! ### A syntactic JSON validity checker

The following recursive-descent checker accepts a sub-grammar of JSON:
an object with exactly one member whose value is an object of string-valued
members, with standard JSON whitespace between tokens, strings containing
neither quotes, backslashes nor control characters, and commas strictly
between members (no trailing comma).  Everything it accepts is valid JSON of
exactly the shape the `package.json` writer is supposed to produce. -/

/-- JSON insignificant whitespace. -/
def wsChar (c : Char) : Bool := c = ' ' || c = '\n' || c = '\t' || c = '\r'

/-- Skip insignificant whitespace. -/
def skipWs (cs : List Char) : List Char := cs.dropWhile wsChar

/-- A character that may appear in a JSON string literal without escaping. -/
def jsonStrChar (c : Char) : Bool := !(c = '"') && !(c = '\\') && 32 ≤ c.toNat

/-- Parse a JSON string literal with no escape sequences. -/
def parseJsonStr : List Char → Option (List Char)
  | c :: cs =>
    if c = '"' then
      match cs.dropWhile jsonStrChar with
      | c2 :: rest => if c2 = '"' then some rest else none
      | [] => none
    else none
  | [] => none

/-- Parse one `"name" : "value"` member. -/
def parseStrMember (cs : List Char) : Option (List Char) :=
  match parseJsonStr (skipWs cs) with
  | some r1 =>
    match skipWs r1 with
    | c :: r2 => if c = ':' then parseJsonStr (skipWs r2) else none
    | [] => none
  | none => none

/-- After one member: repeatedly a comma and a further member.  The result is
whitespace-normalised.  The fuel only bounds the recursion; each step consumes
at least the comma, so the input length is always enough fuel. -/
def parseMembersRest : Nat → List Char → Option (List Char)
  | 0, _ => none
  | Nat.succ fuel, cs =>
    match skipWs cs with
    | c :: r =>
      if c = ',' then
        match parseStrMember r with
        | some r2 => parseMembersRest fuel r2
        | none => none
      else some (c :: r)
    | [] => some []

/-- Parse an object all of whose member values are string literals. -/
def parseFlatObj (cs : List Char) : Option (List Char) :=
  match skipWs cs with
  | c :: r =>
    if c = '\x7b' then
      match skipWs r with
      | c2 :: r2 =>
        if c2 = '\x7d' then some r2
        else
          match parseStrMember r with
          | some r3 =>
            match parseMembersRest (r3.length + 1) r3 with
            | some r4 =>
              match r4 with
              | c3 :: r5 => if c3 = '\x7d' then some r5 else none
              | [] => none
            | none => none
          | none => none
      | [] => none
    else none
  | [] => none

/-- Parse an object with exactly one member whose value is a flat
string-valued object. -/
def parseTopObj (cs : List Char) : Option (List Char) :=
  match skipWs cs with
  | c :: r =>
    if c = '\x7b' then
      match parseJsonStr (skipWs r) with
      | some r1 =>
        match skipWs r1 with
        | c2 :: r2 =>
          if c2 = ':' then
            match parseFlatObj r2 with
            | some r3 =>
              match skipWs r3 with
              | c3 :: r4 => if c3 = '\x7d' then some r4 else none
              | [] => none
            | none => none
          else none
        | [] => none
      | none => none
    else none
  | [] => none

/-- The whole text is one object with one member, that member maps a name to
an object of string-to-string members, and nothing but whitespace follows. -/
def validDepsJson (s : String) : Bool :=
  match parseTopObj s.data with
  | some rest => skipWs rest = []
  | none => false

/-- Every character of the string may sit unescaped in a JSON string literal. -/
def jsonSafe (s : String) : Bool := s.data.all jsonStrChar

/-- The first-entry characterisation of the `package.json` body text, used to
relate the indexed comma rule of `jsLines` to a last-entry-has-no-comma view. -/
def linesJoinF : List (String × String) → String
  | [] => ""
  | kv :: rest =>
    jsEntryStr kv ++ (if rest = [] then "" else ",") ++ "\n" ++ linesJoinF rest

/-- The body text that follows one already-parsed entry: the separating comma
when further entries follow, the newline, and the remaining lines. -/
def afterEntry (rest : List (String × String)) : String :=
  (if rest = [] then "" else ",") ++ "\n" ++ linesJoinF rest

/-- A pypi oracle for concrete runs: knows `python-dotenv`, fails otherwise. -/
def pypiDemo : String → NetReply := fun name =>
  if name = "python-dotenv" then .response 200 (.ok "1.0.1")
  else .raiseGet "connection error"

/-- A registry oracle for concrete runs on which every request times out. -/
def npmDemo : String → NetReply := fun _ => .raiseGet "connection error"

/-- A directory for concrete runs: one python file below a `venv` segment and
one below a directory merely containing `venv` as a substring. -/
def demoTree : List SrcFile :=
  [⟨["proj", "venv", "lib", "a.py"], "import secretlib"⟩,
   ⟨["proj", "venvtools", "b.py"], "import toollib"⟩]

/-! ### Helper lemmas -/

theorem strData_append (a b : String) : (a ++ b).data = a.data ++ b.data :=
  String.data_append a b

theorem strAppend_assoc (a b c : String) : a ++ b ++ c = a ++ (b ++ c) := by
  cases a with
  | mk da =>
    cases b with
    | mk db =>
      cases c with
      | mk dc =>
        show String.mk ((da ++ db) ++ dc) = String.mk (da ++ (db ++ dc))
        rw [List.append_assoc]

theorem pysorted_perm (l : List String) : List.Perm (pysorted l) l :=
  List.perm_insertionSort _ l

theorem pysorted_eq_of_perm {l1 l2 : List String} (h : List.Perm l1 l2) :
    pysorted l1 = pysorted l2 :=
  List.eq_of_perm_of_sorted
    (((List.perm_insertionSort _ l1).trans h).trans
      (List.perm_insertionSort _ l2).symm)
    (List.sorted_insertionSort _ l1) (List.sorted_insertionSort _ l2)

theorem mem_pysorted {x : String} {l : List String} (h : x ∈ l) :
    x ∈ pysorted l :=
  (List.perm_insertionSort _ l).mem_iff.mpr h

theorem dropWhile_append_all {p : Char → Bool} :
    ∀ {l1 : List Char} (l2 : List Char), l1.all p = true →
      (l1 ++ l2).dropWhile p = l2.dropWhile p := by
  intro l1
  induction l1 with
  | nil => intro l2 _; rfl
  | cons c rest ih =>
    intro l2 h
    rw [List.all_cons, Bool.and_eq_true] at h
    rw [List.cons_append, List.dropWhile_cons, if_pos h.1]
    exact ih l2 h.2

theorem skipWs_cons (c : Char) (x : List Char) :
    skipWs (c :: x) = if wsChar c then skipWs x else c :: x := by
  simp [skipWs, List.dropWhile_cons]

theorem parseJsonStr_exact {body : List Char} (rest : List Char)
    (h : body.all jsonStrChar = true) :
    parseJsonStr ('"' :: (body ++ '"' :: rest)) = some rest := by
  have hq : jsonStrChar '"' = false := by decide
  simp only [parseJsonStr, if_pos rfl]
  rw [dropWhile_append_all _ h, List.dropWhile_cons, hq]
  simp

theorem writeAll_enumFrom_comma (l : List (String × String)) :
    ∀ (k n : Nat), k + l.length = n →
      writeAll ((List.enumFrom k l).map (fun ip =>
        jsEntryStr ip.2 ++ (if ip.1 < n - 1 then "," else "") ++ "\n")) =
      linesJoinF l := by
  induction l with
  | nil => intro k n _; rfl
  | cons kv rest ih =>
    intro k n hn
    show (jsEntryStr kv ++ (if k < n - 1 then "," else "") ++ "\n") ++
        writeAll ((List.enumFrom (k + 1) rest).map _) =
      jsEntryStr kv ++ (if rest = [] then "" else ",") ++ "\n" ++ linesJoinF rest
    rw [ih (k + 1) n (by simp at hn ⊢; omega)]
    have hsep : (if k < n - 1 then "," else "") = (if rest = [] then "" else ",") := by
      cases rest with
      | nil =>
        have : n - 1 = k := by simp at hn; omega
        rw [this]; simp
      | cons b t =>
        have : k < n - 1 := by simp at hn; omega
        rw [if_pos this]; simp
    rw [hsep, strAppend_assoc, strAppend_assoc]

theorem jsDeps_length (pypi npm : String → NetReply) (packages : List String) :
    (jsDeps pypi npm packages).length = packages.length := by
  simp [jsDeps, pysorted, (List.perm_insertionSort _ packages).length_eq]

theorem jsBody_eq (pypi npm : String → NetReply) (packages : List String) :
    writeAll (jsLines pypi npm packages) = linesJoinF (jsDeps pypi npm packages) := by
  have h := writeAll_enumFrom_comma (jsDeps pypi npm packages) 0 packages.length
    (by simp [jsDeps_length])
  simpa [jsLines, List.enum] using h

theorem entry_data (kv : String × String) (rest : List Char) :
    (jsEntryStr kv).data ++ rest =
      ' ' :: ' ' :: ' ' :: ' ' :: '"' ::
        (kv.1.data ++ '"' :: ':' :: ' ' :: '"' :: (kv.2.data ++ '"' :: rest)) := by
  simp [jsEntryStr, strData_append]

theorem member_ok (kv : String × String) (rest : List Char)
    (hn : jsonSafe kv.1 = true) (hv : jsonSafe kv.2 = true) :
    parseStrMember ('\n' :: ((jsEntryStr kv).data ++ rest)) = some rest := by
  rw [entry_data]
  have w1 : wsChar '\n' = true := by decide
  have w2 : wsChar ' ' = true := by decide
  have w3 : wsChar '"' = false := by decide
  have w4 : wsChar ':' = false := by decide
  have hn' : kv.1.data.all jsonStrChar = true := hn
  have hv' : kv.2.data.all jsonStrChar = true := hv
  simp only [parseStrMember, skipWs_cons, w1, w2, w3, w4, if_true, if_false,
    Bool.false_eq_true, ite_false, ite_true]
  rw [parseJsonStr_exact _ hn']
  simp only [skipWs_cons, w4, Bool.false_eq_true, ite_false, if_pos rfl]
  simp only [if_true, w2, w3, Bool.false_eq_true, ite_true, ite_false]
  rw [parseJsonStr_exact _ hv']

theorem linesJoinF_cons (kv : String × String) (rest : List (String × String)) :
    linesJoinF (kv :: rest) = jsEntryStr kv ++ afterEntry rest := by
  simp [linesJoinF, afterEntry, strAppend_assoc]

theorem afterEntry_len (rest : List (String × String)) :
    rest.length ≤ (afterEntry rest).data.length := by
  induction rest with
  | nil => simp
  | cons kv r ih =>
    have h1 : (afterEntry (kv :: r)).data.length =
        2 + ((jsEntryStr kv).data.length + (afterEntry r).data.length) := by
      rw [afterEntry, if_neg (List.cons_ne_nil kv r), linesJoinF_cons]
      simp [strData_append]
      omega
    simp only [List.length_cons]
    omega

theorem loop_ok (deps : List (String × String)) :
    ∀ (fuel : Nat), deps.length < fuel →
    (∀ kv ∈ deps, jsonSafe kv.1 = true ∧ jsonSafe kv.2 = true) →
    parseMembersRest fuel
        ((afterEntry deps).data ++ (' ' :: ' ' :: '\x7d' :: '\n' :: '\x7d' :: [])) =
      some ('\x7d' :: '\n' :: '\x7d' :: []) := by
  induction deps with
  | nil =>
    intro fuel hf _
    obtain ⟨f, rfl⟩ : ∃ f, fuel = f + 1 := ⟨fuel - 1, by omega⟩
    have hstream : (afterEntry []).data ++ (' ' :: ' ' :: '\x7d' :: '\n' :: '\x7d' :: []) =
        '\n' :: ' ' :: ' ' :: '\x7d' :: '\n' :: '\x7d' :: [] := by decide
    rw [hstream]
    have w1 : wsChar '\n' = true := by decide
    have w2 : wsChar ' ' = true := by decide
    have w5 : wsChar '\x7d' = false := by decide
    have e1 : (('\x7d' : Char) = ',') = False := eq_false (by decide)
    simp only [parseMembersRest, skipWs_cons, w1, w2, w5, if_true, ite_true,
      Bool.false_eq_true, ite_false, e1, if_false]
  | cons kv rest ih =>
    intro fuel hf hs
    obtain ⟨f, rfl⟩ : ∃ f, fuel = f + 1 := ⟨fuel - 1, by omega⟩
    have hstream : (afterEntry (kv :: rest)).data ++
          (' ' :: ' ' :: '\x7d' :: '\n' :: '\x7d' :: []) =
        ',' :: '\n' :: ((jsEntryStr kv).data ++
          ((afterEntry rest).data ++ (' ' :: ' ' :: '\x7d' :: '\n' :: '\x7d' :: []))) := by
      rw [afterEntry, if_neg (List.cons_ne_nil kv rest), linesJoinF_cons]
      simp [strData_append, List.append_assoc]
    rw [hstream]
    have w6 : wsChar ',' = false := by decide
    simp only [parseMembersRest, skipWs_cons, w6, Bool.false_eq_true, ite_false,
      if_pos rfl]
    rw [member_ok kv _ (hs kv (by simp)).1 (hs kv (by simp)).2]
    exact ih f (by simp at hf ⊢; omega) (fun kv2 h2 => hs kv2 (by simp [h2]))

theorem member_ok2 (kv : String × String) (tail : List Char)
    (hn : jsonSafe kv.1 = true) (hv : jsonSafe kv.2 = true) :
    parseStrMember ('\n' :: ' ' :: ' ' :: ' ' :: ' ' :: '"' ::
      (kv.1.data ++ '"' :: ':' :: ' ' :: '"' :: (kv.2.data ++ '"' :: tail))) =
      some tail := by
  have h := member_ok kv tail hn hv
  rwa [entry_data] at h

theorem flatObj_ok (kv : String × String) (rest : List (String × String))
    (hs : ∀ p ∈ kv :: rest, jsonSafe p.1 = true ∧ jsonSafe p.2 = true) :
    parseFlatObj (' ' :: '\x7b' :: '\n' ::
      ((linesJoinF (kv :: rest)).data ++ (' ' :: ' ' :: '\x7d' :: '\n' :: '\x7d' :: []))) =
      some ('\n' :: '\x7d' :: []) := by
  have hstream : (linesJoinF (kv :: rest)).data ++
        (' ' :: ' ' :: '\x7d' :: '\n' :: '\x7d' :: []) =
      ' ' :: ' ' :: ' ' :: ' ' :: '"' ::
        (kv.1.data ++ '"' :: ':' :: ' ' :: '"' ::
          (kv.2.data ++ '"' ::
            ((afterEntry rest).data ++ (' ' :: ' ' :: '\x7d' :: '\n' :: '\x7d' :: [])))) := by
    rw [linesJoinF_cons, strData_append, List.append_assoc, entry_data]
  rw [hstream]
  have w1 : wsChar '\n' = true := by decide
  have w2 : wsChar ' ' = true := by decide
  have w3 : wsChar '"' = false := by decide
  have w7 : wsChar '\x7b' = false := by decide
  have e2 : (('"' : Char) = '\x7d') = False := eq_false (by decide)
  simp only [parseFlatObj, skipWs_cons, w1, w2, w3, w7, if_true, ite_true,
    Bool.false_eq_true, ite_false, if_pos rfl, e2, if_false]
  rw [member_ok2 kv _ (hs kv (by simp)).1 (hs kv (by simp)).2]
  have hlen : rest.length <
      ((afterEntry rest).data ++ (' ' :: ' ' :: '\x7d' :: '\n' :: '\x7d' :: [])).length + 1 := by
    have h1 := afterEntry_len rest
    simp only [List.length_append]
    omega
  simp only [loop_ok rest _ hlen (fun p hp => hs p (by simp [hp])), if_pos rfl, if_true]

theorem jsDeps_ne_nil (pypi npm : String → NetReply) {packages : List String}
    (hne : packages ≠ []) : jsDeps pypi npm packages ≠ [] := by
  intro h
  apply hne
  have hsort : pysorted packages = [] := by
    simpa [jsDeps] using List.map_eq_nil_iff.mp h
  have hp := pysorted_perm packages
  rw [hsort] at hp
  exact hp.symm.eq_nil

theorem jsManifestContent_data (pypi npm : String → NetReply)
    (packages : List String) :
    (jsManifestContent pypi npm packages).data =
      '\x7b' :: '\n' :: ' ' :: ' ' :: '"' ::
        ("dependencies".data ++ '"' :: ':' :: ' ' :: '\x7b' :: '\n' ::
          ((linesJoinF (jsDeps pypi npm packages)).data ++
            (' ' :: ' ' :: '\x7d' :: '\n' :: '\x7d' :: []))) := by
  have hpre : "\x7b\n  \"dependencies\": \x7b\n".data =
      '\x7b' :: '\n' :: ' ' :: ' ' :: '"' ::
        ("dependencies".data ++ ['"', ':', ' ', '\x7b', '\n']) := by decide
  have hpost : "  \x7d\n\x7d".data = [' ', ' ', '\x7d', '\n', '\x7d'] := by decide
  simp only [jsManifestContent, strData_append, jsBody_eq, hpre, hpost,
    List.append_assoc, List.cons_append, List.nil_append]

/-- C7 (amended): for every nonempty javascript package set whose emitted
names and version strings contain no quote, backslash or control character
(names captured by the javascript import grammar can never contain a quote),
the written `package.json` text is syntactically valid JSON of exactly the
claimed shape: one object with the single top-level key `dependencies`
holding an object that maps package names to version strings, with commas
strictly between entries — no trailing comma after the last one. -/
theorem jsManifestContent_valid (pypi npm : String → NetReply)
    (packages : List String) (hne : packages ≠ [])
    (hs : ∀ kv ∈ jsDeps pypi npm packages,
      jsonSafe kv.1 = true ∧ jsonSafe kv.2 = true) :
    validDepsJson (jsManifestContent pypi npm packages) = true := by
  obtain ⟨kv, rest, hdeps⟩ : ∃ kv rest, jsDeps pypi npm packages = kv :: rest := by
    cases hd : jsDeps pypi npm packages with
    | nil => exact absurd hd (jsDeps_ne_nil pypi npm hne)
    | cons a b => exact ⟨a, b, rfl⟩
  have hcontent := jsManifestContent_data pypi npm packages
  rw [hdeps] at hcontent hs
  have w1 : wsChar '\n' = true := by decide
  have w2 : wsChar ' ' = true := by decide
  have w3 : wsChar '"' = false := by decide
  have w4 : wsChar ':' = false := by decide
  have w7 : wsChar '\x7b' = false := by decide
  have w5 : wsChar '\x7d' = false := by decide
  have hdep : "dependencies".data.all jsonStrChar = true := by decide
  simp only [validDepsJson, hcontent, parseTopObj, skipWs_cons, w1, w2, w3, w4,
    w7, w5, if_true, ite_true, Bool.false_eq_true, ite_false, if_pos rfl]
  rw [parseJsonStr_exact _ hdep]
  simp only [skipWs_cons, w4, Bool.false_eq_true, ite_false, if_pos rfl]
  rw [flatObj_ok kv rest hs]
  simp only [skipWs_cons, w1, w5, if_true, ite_true, Bool.false_eq_true,
    ite_false, if_pos rfl]
  simp [skipWs]

theorem pythonManifestContent_perm (pypi npm : String → NetReply)
    {l1 l2 : List String} (h : List.Perm l1 l2) :
    pythonManifestContent pypi npm l1 = pythonManifestContent pypi npm l2 := by
  simp [pythonManifestContent, pythonManifestLines, pysorted_eq_of_perm h]

theorem jsManifestContent_perm (pypi npm : String → NetReply)
    {l1 l2 : List String} (h : List.Perm l1 l2) :
    jsManifestContent pypi npm l1 = jsManifestContent pypi npm l2 := by
  simp [jsManifestContent, jsLines, jsDeps, pysorted_eq_of_perm h, h.length_eq]

theorem otherManifestContent_perm {l1 l2 : List String} (h : List.Perm l1 l2) :
    otherManifestContent l1 = otherManifestContent l2 := by
  simp [otherManifestContent, pysorted_eq_of_perm h]

theorem emitBucket_perm (pypi npm : String → NetReply) (out : String)
    (lang : Lang) {l1 l2 : List String} (h : List.Perm l1 l2) :
    emitBucket pypi npm out (lang, l1) = emitBucket pypi npm out (lang, l2) := by
  cases lang <;>
    simp [emitBucket, pythonManifestContent_perm pypi npm h,
      jsManifestContent_perm pypi npm h, otherManifestContent_perm h]

theorem emitLoop_congr (pypi npm : String → NetReply) (out : String)
    {a1 a2 : List (Lang × List String)}
    (h : List.Forall₂ (fun lp lq => lp.1 = lq.1 ∧ List.Perm lp.2 lq.2) a1 a2) :
    emitLoop pypi npm a1 out = emitLoop pypi npm a2 out := by
  induction h with
  | nil => rfl
  | cons hpq htail ih =>
    rename_i p q t1 t2
    obtain ⟨hl, hp⟩ := hpq
    obtain ⟨lang, pk⟩ := p
    obtain ⟨lang2, qk⟩ := q
    simp only at hl hp
    subst hl
    by_cases hnil : pk = []
    · have hq : qk = [] := by
        subst hnil
        exact hp.symm.eq_nil
      simp only [emitLoop, List.filterMap_cons, hnil, hq, if_pos rfl]
      exact ih
    · have hq : qk ≠ [] := by
        intro hh
        subst hh
        exact hnil hp.eq_nil
      simp only [emitLoop, List.filterMap_cons, if_neg hnil, if_neg hq]
      rw [emitBucket_perm pypi npm out lang hp]
      exact congrArg _ ih

theorem emitManifests_eq_loop (pypi npm : String → NetReply)
    (a : List (Lang × List String)) (out : String) :
    emitManifests pypi npm a out = emitLoop pypi npm a out := by
  cases a with
  | nil => rfl
  | cons p t => simp [emitManifests, List.cons_ne_nil]

/-- C1 (counterexample): with the alias entry `dotenv -> python-dotenv` in
place and a registry that knows `python-dotenv` at version `1.0.1`, the
emitted python manifest line is `dotenv==1.0.1`: it names the raw import
identifier, not the canonical registry name from the alias table. -/
theorem manifest_line_alias_counterexample :
    pythonManifestLines pypiDemo npmDemo ["dotenv"] = ["dotenv==1.0.1"] ∧
    pyStartswith "dotenv==1.0.1" "python-dotenv" = false ∧
    pyStartswith "dotenv==1.0.1" "dotenv" = true := by
  refine ⟨by decide, by decide, by decide⟩

/-- C1 (amended): the alias table is applied only inside the version lookup —
`get_latest_version` consults the registry exactly at the canonical
(alias-resolved) name — while the line the python manifest receives for a
detected identifier always names the raw identifier itself (bare, or with the
version found for the canonical name). -/
theorem alias_only_affects_lookup (pypi npm pypi2 : String → NetReply)
    (packages : List String) (p : String) (hp : p ∈ packages)
    (hagree : pypi2 (resolve_name .python p) = pypi (resolve_name .python p)) :
    pyLine pypi npm p ∈ pythonManifestLines pypi npm packages ∧
    get_latest_version pypi2 npm .python p = get_latest_version pypi npm .python p := by
  constructor
  · exact List.mem_map_of_mem _ (mem_pysorted hp)
  · simp [get_latest_version, getLatestVersionE, hagree]

/-- C1 (witness): the amended statement at `dotenv` with the demo registry. -/
theorem alias_only_affects_lookup_witness :
    pyLine pypiDemo npmDemo "dotenv" ∈
      pythonManifestLines pypiDemo npmDemo ["dotenv"] ∧
    get_latest_version pypiDemo npmDemo .python "dotenv" =
      get_latest_version pypiDemo npmDemo .python "dotenv" :=
  alias_only_affects_lookup pypiDemo npmDemo pypiDemo ["dotenv"] "dotenv"
    (by decide) rfl

/-- C2 (counterexample): scanning a nonexistent root completes normally — the
caller observes `Except.ok` (no `ConfigurationError` or any other exception),
an empty scan result, and `generate_requirements` writes no manifest file. -/
theorem missing_root_error_counterexample :
    (scanDirectoryE false [⟨["a.py"], "import requests"⟩]).isOk = true ∧
    scan_directory false [⟨["a.py"], "import requests"⟩] Lang.python = ∅ ∧
    generate_requirements pypiDemo npmDemo false [⟨["a.py"], "import requests"⟩]
      "requirements.txt" = [] := by
  refine ⟨rfl, rfl, ?_⟩
  show emitManifests pypiDemo npmDemo
    (scanDict false [⟨["a.py"], "import requests"⟩]) "requirements.txt" = []
  have h : scanDict false [⟨["a.py"], "import requests"⟩] = [] := by
    simp [scanDict, scan_directory, Finset.sort_empty]
  rw [h]
  rfl

/-- C2 (amended): for a nonexistent root the scan does not signal any error to
the caller: it returns the empty per-language result (after only logging),
independently of whatever files are below the root (so none is read), and the
full pipeline writes no manifest file. -/
theorem missing_root_returns_empty (pypi npm : String → NetReply)
    (files : List SrcFile) (out : String) :
    scanDirectoryE false files = Except.ok (fun _ => ∅) ∧
    scan_directory false files = scan_directory false [] ∧
    generate_requirements pypi npm false files out = [] := by
  refine ⟨rfl, rfl, ?_⟩
  show emitManifests pypi npm (scanDict false files) out = []
  have h : scanDict false files = [] := by
    simp [scanDict, scan_directory, Finset.sort_empty]
  rw [h]
  rfl

/-- C3: the version lookup never lets a failure escape: unless the registry of
the language answered a 200 response whose version field extracted cleanly,
`get_latest_version` returns `None` — this covers raised `requests.get`
(timeout, connection failure), any non-200 status, a raise while parsing or
indexing the JSON body, and the languages with no configured registry. -/
theorem version_lookup_failures_collapse (pypi npm : String → NetReply)
    (lang : Lang) (package : String)
    (h : ¬ ∃ v, (lang = .python ∧
          pypi (resolve_name .python package) = .response 200 (.ok v)) ∨
        (lang = .javascript ∧
          npm (resolve_name .javascript package) = .response 200 (.ok v))) :
    get_latest_version pypi npm lang package = none := by
  cases lang with
  | python =>
    cases hr : pypi (resolve_name .python package) with
    | raiseGet m => simp [get_latest_version, getLatestVersionE, hr]
    | response st vf =>
      by_cases hst : st = 200
      · subst hst
        cases vf with
        | error m => simp [get_latest_version, getLatestVersionE, hr]
        | ok v => exact absurd ⟨v, Or.inl ⟨rfl, hr⟩⟩ h
      · simp [get_latest_version, getLatestVersionE, hr, hst]
  | javascript =>
    cases hr : npm (resolve_name .javascript package) with
    | raiseGet m => simp [get_latest_version, getLatestVersionE, hr]
    | response st vf =>
      by_cases hst : st = 200
      · subst hst
        cases vf with
        | error m => simp [get_latest_version, getLatestVersionE, hr]
        | ok v => exact absurd ⟨v, Or.inr ⟨rfl, hr⟩⟩ h
      · simp [get_latest_version, getLatestVersionE, hr, hst]
  | java => rfl
  | csharp => rfl

/-- C3 (witness): a timed-out pypi lookup for `requests` collapses to `None`. -/
theorem version_lookup_failures_collapse_witness :
    get_latest_version npmDemo npmDemo .python "requests" = none :=
  version_lookup_failures_collapse npmDemo npmDemo .python "requests"
    (by simp [npmDemo])

/-- C4: a file one of whose path segments is exactly `venv`, `__pycache__` or
`node_modules` is skipped entirely — removing it from the walk leaves every
aggregated per-language set unchanged, so none of its imports shows up; and on
the concrete demo tree the `import secretlib` below `proj/venv/lib` never
reaches the python bucket while the `import toollib` below the
substring-named directory `venvtools` does. -/
theorem excluded_segment_contributes_nothing (files : List SrcFile)
    (f : SrcFile) (h : excludedPath f.parts = true) :
    scan_directory true (f :: files) = scan_directory true files ∧
    "secretlib" ∉ scan_directory true demoTree Lang.python ∧
    "toollib" ∈ scan_directory true demoTree Lang.python := by
  refine ⟨?_, by decide, by decide⟩
  funext lang
  show (List.filter _ (f :: files)).foldr _ ∅ = (List.filter _ files).foldr _ ∅
  rw [List.filter_cons]
  have hf : fileContributes f lang = false := by
    simp [fileContributes, h]
  rw [hf]
  simp

/-- C4 (witness): a file directly below a `venv` directory contributes
nothing to the scan. -/
theorem excluded_segment_contributes_nothing_witness :
    scan_directory true [⟨["venv", "x.py"], "import evil"⟩] =
      scan_directory true [] ∧
    "secretlib" ∉ scan_directory true demoTree Lang.python ∧
    "toollib" ∈ scan_directory true demoTree Lang.python :=
  excluded_segment_contributes_nothing [] ⟨["venv", "x.py"], "import evil"⟩
    (by decide)

/-- C5: the emission stage is insensitive to the iteration order of the
per-language package sets: two scan results that bucket the same languages in
the same dict order with set-equal (permuted) package lists — exactly the
freedom two runs over an unchanged tree have — produce byte-identical
manifest files, file name and content alike.  Every bucket is sorted before
writing, so this makes the full pipeline idempotent when the version resolver
answers the same both times. -/
theorem manifest_emission_order_independent (pypi npm : String → NetReply)
    (out : String) (a1 a2 : List (Lang × List String))
    (h : List.Forall₂ (fun lp lq => lp.1 = lq.1 ∧ List.Perm lp.2 lq.2) a1 a2) :
    emitManifests pypi npm a1 out = emitManifests pypi npm a2 out := by
  rw [emitManifests_eq_loop, emitManifests_eq_loop]
  exact emitLoop_congr pypi npm out h

/-- C5 (witness): the two iteration orders of the set `\x7b"a", "b"\x7d` give
the same written files. -/
theorem manifest_emission_order_independent_witness :
    emitManifests pypiDemo npmDemo [(Lang.python, ["b", "a"])] "requirements.txt" =
      emitManifests pypiDemo npmDemo [(Lang.python, ["a", "b"])] "requirements.txt" :=
  manifest_emission_order_independent pypiDemo npmDemo "requirements.txt"
    [(Lang.python, ["b", "a"])] [(Lang.python, ["a", "b"])]
    (List.Forall₂.cons ⟨rfl, by decide⟩ List.Forall₂.nil)

/-- C6: a package whose version lookup yields `None` is still included in its
manifest: the python manifest receives the bare line `name` (no version
suffix) and the javascript manifest maps `name` to the wildcard `*`. -/
theorem unknown_version_still_included (pypi npm : String → NetReply)
    (pkgsPy pkgsJs : List String) (p q : String)
    (hp : p ∈ pkgsPy) (hq : q ∈ pkgsJs)
    (hvp : get_latest_version pypi npm .python p = none)
    (hvq : get_latest_version pypi npm .javascript q = none) :
    p ∈ pythonManifestLines pypi npm pkgsPy ∧
    (q, "*") ∈ jsDeps pypi npm pkgsJs := by
  constructor
  · have hline : pyLine pypi npm p = p := by
      simp [pyLine, hvp, pyTruthy]
    rw [← hline]
    exact List.mem_map_of_mem _ (mem_pysorted hp)
  · have hentry : (fun pkg => (pkg, jsVersionStr pypi npm pkg)) q = (q, "*") := by
      simp [jsVersionStr, hvq, pyTruthy]
    rw [jsDeps, ← hentry]
    exact List.mem_map_of_mem _ (mem_pysorted hq)

/-- C6 (witness): with every registry request timing out, `foo` appears bare
in the python manifest and as wildcard in the javascript entries. -/
theorem unknown_version_still_included_witness :
    "foo" ∈ pythonManifestLines npmDemo npmDemo ["foo"] ∧
    ("foo", "*") ∈ jsDeps npmDemo npmDemo ["foo"] :=
  unknown_version_still_included npmDemo npmDemo ["foo"] ["foo"] "foo" "foo"
    (by decide) (by decide) (by decide) (by decide)

/-- C7 (counterexample): the capture class `[^\x27\x22]*` admits raw control
characters, so a javascript file importing a name with a literal tab puts
that name into the detected set, and the writer emits the tab unescaped
inside a JSON string literal — invalid in any reading of JSON (RFC 8259
forbids unescaped control characters in strings), and rejected by the
shape checker; hence the written file for this nonempty package set is not
valid JSON, refuting the claim as stated. -/
theorem package_json_validity_counterexample :
    extract_imports "const x = require(\"a\tb\")" Lang.javascript = {"a\tb"} ∧
    (["a\tb"] : List String) ≠ [] ∧
    validDepsJson (jsManifestContent npmDemo npmDemo ["a\tb"]) = false := by
  refine ⟨by decide, by decide, by decide⟩

/-- C7 (witness): the manifest written for the single package `lodash` with an
unresolved version passes the JSON validity checker. -/
theorem jsManifestContent_valid_witness :
    validDepsJson (jsManifestContent npmDemo npmDemo ["lodash"]) = true :=
  jsManifestContent_valid npmDemo npmDemo ["lodash"] (by decide) (by decide)

/-- C8: the `output_file` argument renames only the python bucket manifest:
the files written for any scan result and any `output_file` are exactly the
files of a default run with the python manifest path (and nothing else)
replaced; the javascript bucket always goes to the fixed `package.json` and
the java and C# buckets to their fixed `requirements-<lang>.txt` names,
with identical contents in all cases. -/
theorem output_file_affects_only_python_manifest (pypi npm : String → NetReply)
    (allImports : List (Lang × List String)) (out : String)
    (pkgs : List String) :
    emitManifests pypi npm allImports out =
      (emitManifests pypi npm allImports "requirements.txt").map (fun e =>
        (if e.1 = "requirements.txt" then out else e.1, e.2)) ∧
    emitBucket pypi npm out (Lang.python, pkgs) =
      (out, pythonManifestContent pypi npm pkgs) ∧
    emitBucket pypi npm out (Lang.javascript, pkgs) =
      ("package.json", jsManifestContent pypi npm pkgs) ∧
    emitBucket pypi npm out (Lang.java, pkgs) =
      ("requirements-java.txt", otherManifestContent pkgs) ∧
    emitBucket pypi npm out (Lang.csharp, pkgs) =
      ("requirements-csharp.txt", otherManifestContent pkgs) := by
  refine ⟨?_, rfl, rfl, rfl, rfl⟩
  rw [emitManifests_eq_loop, emitManifests_eq_loop]
  induction allImports with
  | nil => rfl
  | cons lp tail ih =>
    by_cases hnil : lp.2 = []
    · simpa [emitLoop, List.filterMap_cons, hnil] using ih
    · simp only [emitLoop, List.filterMap_cons, if_neg hnil, List.map_cons]
      refine congrArg₂ _ ?_ ih
      obtain ⟨lang, pk⟩ := lp
      cases lang with
      | python => simp [emitBucket]
      | javascript => simp [emitBucket]
      | java =>
        simp only [emitBucket]
        rw [if_neg (by decide :
          ¬ ("requirements-" ++ Lang.java.key ++ ".txt" = "requirements.txt"))]
      | csharp =>
        simp only [emitBucket]
        rw [if_neg (by decide :
          ¬ ("requirements-" ++ Lang.csharp.key ++ ".txt" = "requirements.txt"))]

/-- C9: the root extraction `match.split(".")[0]` leaves no dot in the
candidate identifier, while the java and C# stdlib predicates only test
`startswith` against prefixes that contain a dot — so those predicates never
exclude any candidate; concretely, `import java.util.List;` in a `.java`
file contributes the identifier `java` itself to the result set. -/
theorem java_csharp_stdlib_never_excludes (raw : String) :
    stdlibCheck .java (rootOf raw) = false ∧
    stdlibCheck .csharp (rootOf raw) = false ∧
    extract_imports "import java.util.List;" .java = {"java"} := by
  have hnodot : ∀ c ∈ (rootOf raw).data, ¬ c = '.' := by
    intro c hc
    have hmem : c ∈ raw.data.takeWhile (fun d => d ≠ '.') := hc
    have := List.mem_takeWhile_imp hmem
    simpa using this
  have hgen : ∀ pre : String, '.' ∈ pre.data →
      pyStartswith (rootOf raw) pre = false := by
    intro pre hdot
    by_contra hcon
    rw [Bool.not_eq_false] at hcon
    have hpref := List.isPrefixOf_iff_prefix.mp hcon
    exact hnodot '.' (hpref.subset hdot) rfl
  refine ⟨?_, ?_, by decide⟩
  · simp [stdlibCheck, hgen "java." (by decide), hgen "javax." (by decide)]
  · simp [stdlibCheck, hgen "System." (by decide), hgen "Microsoft." (by decide)]
